import Mathlib

/-!
# Verification of the Spending Tracker form logic

A shallow embedding, in Lean 4, of the logic of `src/app.py` (a single-file
personal spending tracker): the Python string primitives `str.strip` and
`str.title` used to normalize category names, the category fetch (`fetch_categories`),
the spending fetch and display projection (`fetch_spendings` / `display_df`),
and the form submission handler (`spending_form`, lines 136-197 of the source),
together with a ledger-state transition system describing the stores the
Firestore writes act on.

Conventions used throughout the embedding:
* Python `str` is Lean `String`; the primitives are restricted to the
  basic-latin (ASCII) case mappings, matching Lean's `Char.toUpper`/`Char.toLower`.
* Python `float` amounts are modelled as `ℚ`; Python truthiness of a number is
  `≠ 0`, of a string is `≠ ""`, of `Optional[str]` is `pyTruthy`.
* Firestore document creation calls (`.add`) are modelled as an ordered list of
  `FirestoreWrite` values; the `firestore.SERVER_TIMESTAMP` sentinel is the
  `TimestampValue.serverTimestamp` constructor.
* Firestore query results are inputs to the fetch functions; a raised exception
  during a fetch is the `Except.error` case.

The file is organized as definitions first, then theorems.
-/

namespace SpendingTracker

/-! ## Definitions: Python string primitives

`pyStrip` embeds Python `str.strip()` (no argument: remove leading and trailing
whitespace).  `pyTitle` embeds Python `str.title()`: a character is uppercased
when the preceding character is not cased (CPython keeps a `previous_is_cased`
flag while scanning left to right), and lowercased otherwise; over the
basic-latin range "cased" coincides with `Char.isAlpha`. -/

def pyStripList (l : List Char) : List Char :=
  ((l.dropWhile Char.isWhitespace).reverse.dropWhile Char.isWhitespace).reverse

def titleChar (prevCased : Bool) (c : Char) : Char :=
  if prevCased then c.toLower else c.toUpper

def titleAux : Bool → List Char → List Char
  | _, [] => []
  | prevCased, c :: cs => titleChar prevCased c :: titleAux c.isAlpha cs

/-- Python `s.strip()`. -/
def pyStrip (s : String) : String := ⟨pyStripList s.data⟩

/-- Python `s.title()`. -/
def pyTitle (s : String) : String := ⟨titleAux false s.data⟩

/-- The category-name normalization of the source, `new_category_name.strip().title()`
(src/app.py line 151 and line 170). -/
def normalizeCategory (s : String) : String := pyTitle (pyStrip s)

/-- Python `a <= b` on lists of code points: Python compares strings
lexicographically by code point, and `sorted` sorts ascending in this order. -/
def pyLexLe : List Char → List Char → Bool
  | [], _ => true
  | _ :: _, [] => false
  | c :: cs, d :: ds =>
    if c.toNat < d.toNat then true
    else if c.toNat = d.toNat then pyLexLe cs ds
    else false

/-- Python `a <= b` on strings, as a proposition. -/
def pyLeProp (a b : String) : Prop := pyLexLe a.data b.data = true

instance : DecidableRel pyLeProp := fun a b => instDecidableEqBool (pyLexLe a.data b.data) true

/-! ## Definitions: data model

The two Firestore collections of the app hold category documents
(`{"name": ..., "userId": ...}`, src/app.py line 177) and spending documents
(`{"amount", "description", "category", "timestamp", "userId"}`, lines 184-190). -/

/-- The value stored in the `timestamp` field of a spending write: either the
`firestore.SERVER_TIMESTAMP` sentinel or a concrete client-supplied time. -/
inductive TimestampValue where
  | serverTimestamp
  | clientTime (t : ℤ)
deriving DecidableEq

/-- The payload of `spendings_ref.add({...})` (src/app.py lines 184-190). -/
structure SpendingPayload where
  amount : ℚ
  description : String
  category : String
  timestamp : TimestampValue
  userId : String
deriving DecidableEq

/-- A Firestore document-creation call issued by the form handler. -/
inductive FirestoreWrite where
  | categoryAdd (name : String) (userId : String)
  | spendingAdd (p : SpendingPayload)
deriving DecidableEq

def FirestoreWrite.isCategoryAdd : FirestoreWrite → Bool
  | .categoryAdd _ _ => true
  | .spendingAdd _ => false

def FirestoreWrite.isSpendingAdd : FirestoreWrite → Bool
  | .categoryAdd _ _ => false
  | .spendingAdd _ => true

/-- The user-visible outcome of a submission: one of the three inline
validation errors (src/app.py lines 161-166), success (lines 167-192), or the
"Firestore collection not ready" error shown when the collection reference is
`None` (lines 193-194). -/
inductive SubmitResult where
  | validationError (msg : String)
  | success (category : String)
  | storeNotReady
deriving DecidableEq

structure SubmitOutcome where
  result : SubmitResult
  writes : List FirestoreWrite
deriving DecidableEq

/-- The placeholder first entry of the category selectbox (src/app.py line 143). -/
def selectSentinel : String := "Select an existing category"

/-- The "create a new category" entry of the selectbox (src/app.py line 143). -/
def createSentinel : String := "--- Create New Category ---"

/-- The options of the category selectbox (src/app.py line 143):
`["Select an existing category"] + categories + ["--- Create New Category ---"]`. -/
def category_options (categories : List String) : List String :=
  selectSentinel :: categories ++ [createSentinel]

/-- Python truthiness of an `Optional[str]`: `None` and `""` are falsy. -/
def pyTruthy : Option String → Bool
  | none => false
  | some s => !(s == "")

/-- Lines 146-156 of src/app.py: starting from the selectbox choice, compute the
final values of `selected_category_option` and `new_category_name` just before
the submit button is handled.  When the "create new" entry is chosen and the
entered name is truthy, both variables are replaced by the normalized name
(this covers both the `in categories` warning branch and the `else` branch,
which assign the same value and differ only in the message shown). -/
def resolveSelection (selectedInput newNameInput : String) : String × Option String :=
  if selectedInput = createSentinel then
    if newNameInput ≠ "" then
      let n := normalizeCategory newNameInput
      (n, some n)
    else (selectedInput, some newNameInput)
  else (selectedInput, none)

/-- Line 168-170 of src/app.py: `final_category` is the (re-)normalized new name
when the selection still equals the "create new" sentinel and the name is
truthy, and the selected option otherwise. -/
def finalCategory (selected : String) (newName : Option String) : String :=
  if selected = createSentinel ∧ pyTruthy newName = true then
    normalizeCategory (newName.getD "")
  else selected

/-- The submit handler of the form (src/app.py lines 136-197).

Inputs: the session user id, the previously fetched category list, and the four
widget values.  Output: the user-visible result and the ordered list of
Firestore writes issued.  `if not amount or not description` is amount `= 0`
or description `= ""` (Python truthiness); the collection references are `None`
exactly when the session user id is falsy (lines 67-77), in which case no write
is issued and the spending branch reports "Firestore collection not ready". -/
def spending_form (userId : String) (categories : List String)
    (amount : ℚ) (description selectedInput newNameInput : String) : SubmitOutcome :=
  let p := resolveSelection selectedInput newNameInput
  if amount = 0 ∨ description = "" then
    ⟨.validationError "Please enter both Amount and Description.", []⟩
  else if p.1 = selectSentinel then
    ⟨.validationError "Please select or create a category.", []⟩
  else if p.1 = createSentinel ∧ pyTruthy p.2 = false then
    ⟨.validationError "Please enter a name for the new category.", []⟩
  else
    let fc := finalCategory p.1 p.2
    if userId ≠ "" then
      ⟨.success fc,
        (if fc ∉ categories then [FirestoreWrite.categoryAdd fc userId] else []) ++
          [FirestoreWrite.spendingAdd
            ⟨amount, pyStrip description, fc, .serverTimestamp, userId⟩]⟩
    else ⟨.storeNotReady, []⟩

/-! ## Definitions: fetching and display -/

/-- The function `fetch_categories` (src/app.py lines 101-113).  The Firestore `get()` either
returns the list of stored category names or raises; the function returns the
sorted names, or `[]` with an error surfaced (`st.error`) on a raised fetch
error, and `[]` silently when the collection reference is `None`.  The second
component is the surfaced error message, if any. -/
def fetch_categories (userId : String) (fetched : Except String (List String)) :
    List String × Option String :=
  if userId = "" then ([], none)
  else
    match fetched with
    | .ok names => (List.insertionSort pyLeProp names, none)
    | .error e => ([], some ("Error fetching categories: " ++ e))

/-- A stored spending document as returned by the spendings query; the server
has resolved the timestamp to a concrete commit time, modelled as `ℤ`. -/
structure SpendingDoc where
  amount : ℚ
  description : String
  category : String
  timestamp : ℤ
deriving DecidableEq

/-- Descending-timestamp order on spending documents: the order requested by
`order_by("timestamp", direction=firestore.Query.DESCENDING)` (src/app.py line 87). -/
def tsDesc (a b : SpendingDoc) : Prop := b.timestamp ≤ a.timestamp

instance : DecidableRel tsDesc := fun a b => Int.decLe b.timestamp a.timestamp

instance : IsTotal SpendingDoc tsDesc :=
  ⟨fun a b => Int.le_total b.timestamp a.timestamp⟩

instance : IsTrans SpendingDoc tsDesc :=
  ⟨fun _ _ _ h1 h2 => Int.le_trans h2 h1⟩

/-- The function `fetch_spendings` (src/app.py lines 80-99): the documents of the spendings
query, ordered by timestamp descending, or `[]` with a surfaced error on a
raised fetch error, and `[]` silently when the collection reference is `None`. -/
def fetch_spendings (userId : String) (fetched : Except String (List SpendingDoc)) :
    List SpendingDoc × Option String :=
  if userId = "" then ([], none)
  else
    match fetched with
    | .ok docs => (List.insertionSort tsDesc docs, none)
    | .error e => ([], some ("Error fetching spendings: " ++ e))

/-- One row of the displayed table: the column projection
`spendings_df[['timestamp', 'amount', 'category', 'description']]`
(src/app.py line 208), fields in column order. -/
structure DisplayRow where
  timestamp : ℤ
  amount : ℚ
  category : String
  description : String
deriving DecidableEq

def displayRow (d : SpendingDoc) : DisplayRow :=
  ⟨d.timestamp, d.amount, d.category, d.description⟩

/-- The display projection `display_df` (src/app.py lines 206-210). -/
def display_df (docs : List SpendingDoc) : List DisplayRow := docs.map displayRow

/-! ## Definitions: ledger state and reachability -/

/-- A stored category document (src/app.py line 177). -/
structure CategoryRec where
  name : String
  userId : String
deriving DecidableEq

/-- The two per-user collections. -/
structure LedgerState where
  categories : List CategoryRec
  spendings : List SpendingPayload
deriving DecidableEq

def applyWrite (s : LedgerState) : FirestoreWrite → LedgerState
  | .categoryAdd n u => { s with categories := s.categories ++ [⟨n, u⟩] }
  | .spendingAdd p => { s with spendings := s.spendings ++ [p] }

def applyWrites (s : LedgerState) (ws : List FirestoreWrite) : LedgerState :=
  ws.foldl applyWrite s

/-- The category list the form sees: the first component of `fetch_categories`
over the current store contents (an accurate, non-erroring fetch). -/
def fetchedNames (s : LedgerState) : List String :=
  List.insertionSort pyLeProp (s.categories.map CategoryRec.name)

/-- States reachable from an empty store through submissions of the form.  The
selectbox constrains `selectedInput` to `category_options` of the fetched
category list (src/app.py lines 143-144); the other widget values are
arbitrary. -/
inductive Reachable (userId : String) : LedgerState → Prop where
  | init : Reachable userId ⟨[], []⟩
  | step (s : LedgerState) (amount : ℚ) (description selectedInput newNameInput : String) :
      Reachable userId s →
      selectedInput ∈ category_options (fetchedNames s) →
      Reachable userId (applyWrites s
        (spending_form userId (fetchedNames s) amount description
          selectedInput newNameInput).writes)

/-! ## Definitions: form widget state

The form is declared with `st.form("spending_form", clear_on_submit=True)`
(src/app.py line 136): after any press of the submit button the widgets are
reset to their declared defaults.  The amount widget's default is its
`min_value=0.01` (line 139), text inputs default to `""`, and the selectbox
defaults to its first option. -/

structure FormState where
  amount : ℚ
  description : String
  selectedCategory : String
  newCategoryName : String
deriving DecidableEq

/-- The `clear_on_submit=True` argument at src/app.py line 136. -/
def clear_on_submit : Bool := true

def defaultFormState : FormState := ⟨1/100, "", selectSentinel, ""⟩

/-- The widget state after the submit button is pressed: cleared to defaults
because `clear_on_submit=True`, regardless of the submission's outcome. -/
def formStateAfterSubmit (f : FormState) : FormState :=
  if clear_on_submit then defaultFormState else f

/-! ## Character-level facts about the ASCII case mappings -/

theorem char_toNat_ofNat {n : Nat} (h : n.isValidChar) : (Char.ofNat n).toNat = n := by
  simp [Char.ofNat, dif_pos h, Char.ofNatAux, Char.toNat, UInt32.toNat, BitVec.toNat_ofNatLt]

theorem char_eq_iff_toNat {c d : Char} : c = d ↔ c.toNat = d.toNat := by
  constructor
  · rintro rfl; rfl
  · intro h
    apply Char.ext
    apply UInt32.eq_of_toBitVec_eq
    apply BitVec.eq_of_toNat_eq
    exact h

theorem toNat_toUpper (c : Char) :
    (Char.toUpper c).toNat = if 97 ≤ c.toNat ∧ c.toNat ≤ 122 then c.toNat - 32 else c.toNat := by
  unfold Char.toUpper
  split
  · next h =>
    rw [if_pos h]
    exact char_toNat_ofNat (Or.inl (by omega))
  · next h => rw [if_neg h]

theorem toNat_toLower (c : Char) :
    (Char.toLower c).toNat = if 65 ≤ c.toNat ∧ c.toNat ≤ 90 then c.toNat + 32 else c.toNat := by
  unfold Char.toLower
  split
  · next h =>
    rw [if_pos h]
    exact char_toNat_ofNat (Or.inl (by omega))
  · next h => rw [if_neg h]

theorem toUpper_toUpper (c : Char) : c.toUpper.toUpper = c.toUpper := by
  rw [char_eq_iff_toNat, toNat_toUpper, toNat_toUpper]
  split_ifs <;> omega

theorem toLower_toLower (c : Char) : c.toLower.toLower = c.toLower := by
  rw [char_eq_iff_toNat, toNat_toLower, toNat_toLower]
  split_ifs <;> omega

theorem char_isAlpha_iff {c : Char} :
    c.isAlpha = true ↔ (65 ≤ c.toNat ∧ c.toNat ≤ 90) ∨ (97 ≤ c.toNat ∧ c.toNat ≤ 122) := by
  simp [Char.isAlpha, Char.isLower, Char.isUpper, Char.toNat,
    UInt32.le_def, BitVec.le_def, UInt32.toNat]

theorem char_isWhitespace_iff {c : Char} :
    c.isWhitespace = true ↔ c.toNat = 32 ∨ c.toNat = 9 ∨ c.toNat = 13 ∨ c.toNat = 10 := by
  simp only [Char.isWhitespace, Bool.or_eq_true, decide_eq_true_eq, char_eq_iff_toNat]
  tauto

theorem isAlpha_toUpper (c : Char) : c.toUpper.isAlpha = c.isAlpha := by
  rw [Bool.eq_iff_iff, char_isAlpha_iff, char_isAlpha_iff, toNat_toUpper]
  split_ifs <;> omega

theorem isAlpha_toLower (c : Char) : c.toLower.isAlpha = c.isAlpha := by
  rw [Bool.eq_iff_iff, char_isAlpha_iff, char_isAlpha_iff, toNat_toLower]
  split_ifs <;> omega

theorem isWhitespace_toUpper (c : Char) : c.toUpper.isWhitespace = c.isWhitespace := by
  rw [Bool.eq_iff_iff, char_isWhitespace_iff, char_isWhitespace_iff, toNat_toUpper]
  split_ifs <;> omega

theorem isWhitespace_toLower (c : Char) : c.toLower.isWhitespace = c.isWhitespace := by
  rw [Bool.eq_iff_iff, char_isWhitespace_iff, char_isWhitespace_iff, toNat_toLower]
  split_ifs <;> omega

/-! ## Facts about the string primitives -/

theorem isWhitespace_titleChar (b : Bool) (c : Char) :
    (titleChar b c).isWhitespace = c.isWhitespace := by
  unfold titleChar
  split
  · exact isWhitespace_toLower c
  · exact isWhitespace_toUpper c

theorem isAlpha_titleChar (b : Bool) (c : Char) : (titleChar b c).isAlpha = c.isAlpha := by
  unfold titleChar
  split
  · exact isAlpha_toLower c
  · exact isAlpha_toUpper c

theorem titleChar_titleChar (b : Bool) (c : Char) :
    titleChar b (titleChar b c) = titleChar b c := by
  unfold titleChar
  split
  · exact toLower_toLower c
  · exact toUpper_toUpper c

theorem titleAux_idem (l : List Char) : ∀ b, titleAux b (titleAux b l) = titleAux b l := by
  induction l with
  | nil => intro b; rfl
  | cons c cs ih =>
    intro b
    simp only [titleAux, titleChar_titleChar, isAlpha_titleChar]
    rw [ih c.isAlpha]

theorem head_dropWhile_false {α : Type} {p : α → Bool} :
    ∀ {l : List α} {c : α} {t : List α}, l.dropWhile p = c :: t → p c = false := by
  intro l
  induction l with
  | nil => intro c t h; simp [List.dropWhile] at h
  | cons a as ih =>
    intro c t h
    rw [List.dropWhile_cons] at h
    split at h
    · exact ih h
    · next hp =>
      cases h
      simp only [Bool.not_eq_true] at hp
      exact hp

theorem dropWhile_eq_self {α : Type} {p : α → Bool} {l : List α}
    (h : ∀ c, l.head? = some c → p c = false) : l.dropWhile p = l := by
  cases l with
  | nil => rfl
  | cons a as =>
    rw [List.dropWhile_cons, h a rfl]
    simp

theorem getLast?_dropWhile {α : Type} {p : α → Bool} :
    ∀ {l : List α}, l.dropWhile p ≠ [] → (l.dropWhile p).getLast? = l.getLast? := by
  intro l
  induction l with
  | nil => intro h; simp [List.dropWhile] at h
  | cons a as ih =>
    intro h
    rw [List.dropWhile_cons] at h ⊢
    split
    · next hp =>
      rw [if_pos hp] at h
      have has : as ≠ [] := by
        intro he
        rw [he] at h
        exact h rfl
      rcases as with _ | ⟨b, bs⟩
      · exact absurd rfl has
      · rw [List.getLast?_cons_cons, ih h]
    · rfl

theorem head_dropWhile_of_head? {α : Type} {p : α → Bool} {l : List α} {c : α}
    (h : (l.dropWhile p).head? = some c) : p c = false := by
  rcases hE : l.dropWhile p with _ | ⟨x, xs⟩
  · rw [hE] at h
    simp at h
  · rw [hE] at h
    cases h
    exact head_dropWhile_false hE

theorem head?_pyStripList {l : List Char} {c : Char}
    (h : (pyStripList l).head? = some c) : c.isWhitespace = false := by
  unfold pyStripList at h
  rw [List.head?_reverse] at h
  set M := (l.dropWhile Char.isWhitespace).reverse.dropWhile Char.isWhitespace with hM
  have hMne : M ≠ [] := by
    intro he
    rw [he] at h
    simp at h
  rw [getLast?_dropWhile hMne, List.getLast?_reverse] at h
  exact head_dropWhile_of_head? h

theorem getLast?_pyStripList {l : List Char} {c : Char}
    (h : (pyStripList l).getLast? = some c) : c.isWhitespace = false := by
  unfold pyStripList at h
  rw [List.getLast?_reverse] at h
  exact head_dropWhile_of_head? h

theorem pyStripList_eq_self {l : List Char}
    (h1 : ∀ c, l.head? = some c → c.isWhitespace = false)
    (h2 : ∀ c, l.getLast? = some c → c.isWhitespace = false) : pyStripList l = l := by
  unfold pyStripList
  rw [dropWhile_eq_self h1]
  rw [dropWhile_eq_self (fun c hc => h2 c (by rwa [List.head?_reverse] at hc))]
  exact List.reverse_reverse l

theorem getLast?_cons_of_ne_nil {α : Type} {l : List α} (x : α) (h : l ≠ []) :
    (x :: l).getLast? = l.getLast? := by
  rcases l with _ | ⟨y, ys⟩
  · exact absurd rfl h
  · exact List.getLast?_cons_cons

theorem head?_titleAux {b : Bool} {l : List Char} {c : Char}
    (h : (titleAux b l).head? = some c) :
    ∃ d, l.head? = some d ∧ c.isWhitespace = d.isWhitespace := by
  cases l with
  | nil => simp [titleAux] at h
  | cons d cs =>
    simp only [titleAux, List.head?_cons, Option.some.injEq] at h
    exact ⟨d, rfl, h ▸ isWhitespace_titleChar b d⟩

theorem getLast?_titleAux :
    ∀ (l : List Char) (b : Bool) (c : Char), (titleAux b l).getLast? = some c →
      ∃ d, l.getLast? = some d ∧ c.isWhitespace = d.isWhitespace
  | [], b, c => by simp [titleAux]
  | [d], b, c => by
    simp only [titleAux, List.getLast?_singleton, Option.some.injEq]
    intro h
    exact ⟨d, rfl, h ▸ isWhitespace_titleChar b d⟩
  | d :: e :: cs, b, c => by
    intro h
    rw [show titleAux b (d :: e :: cs) = titleChar b d :: titleAux d.isAlpha (e :: cs) from rfl,
      getLast?_cons_of_ne_nil _ (by simp [titleAux])] at h
    rcases getLast?_titleAux (e :: cs) d.isAlpha c h with ⟨x, hx, hws⟩
    exact ⟨x, by rw [List.getLast?_cons_cons]; exact hx, hws⟩

theorem normalizeCategory_idem (s : String) :
    normalizeCategory (normalizeCategory s) = normalizeCategory s := by
  unfold normalizeCategory pyTitle pyStrip
  congr 1
  have hstrip : pyStripList (titleAux false (pyStripList s.data)) =
      titleAux false (pyStripList s.data) := by
    apply pyStripList_eq_self
    · intro c hc
      rcases head?_titleAux hc with ⟨d, hd, hws⟩
      rw [hws]
      exact head?_pyStripList hd
    · intro c hc
      rcases getLast?_titleAux _ _ _ hc with ⟨d, hd, hws⟩
      rw [hws]
      exact getLast?_pyStripList hd
  rw [hstrip, titleAux_idem]

theorem normalizeCategory_whitespace {s : String}
    (h : ∀ c ∈ s.data, c.isWhitespace = true) : normalizeCategory s = "" := by
  unfold normalizeCategory pyTitle pyStrip pyStripList
  rw [List.dropWhile_eq_nil_iff.mpr h]
  rfl

/-! ## Facts about the string order -/

theorem pyLexLe_total : ∀ a b, pyLexLe a b = true ∨ pyLexLe b a = true
  | [], _ => Or.inl rfl
  | _ :: _, [] => Or.inr rfl
  | c :: cs, d :: ds => by
    rcases Nat.lt_trichotomy c.toNat d.toNat with h | h | h
    · left
      simp only [pyLexLe, if_pos h]
    · rcases pyLexLe_total cs ds with hr | hr
      · left
        simp only [pyLexLe, if_neg (by omega : ¬ c.toNat < d.toNat), if_pos h, hr]
      · right
        simp only [pyLexLe, if_neg (by omega : ¬ d.toNat < c.toNat), if_pos h.symm, hr]
    · right
      simp only [pyLexLe, if_pos h]

theorem pyLexLe_trans : ∀ a b c, pyLexLe a b = true → pyLexLe b c = true → pyLexLe a c = true
  | [], _, _, _, _ => rfl
  | _ :: _, [], _, h1, _ => by simp [pyLexLe] at h1
  | _ :: _, _ :: _, [], _, h2 => by simp [pyLexLe] at h2
  | a :: as, b :: bs, c :: cs, h1, h2 => by
    simp only [pyLexLe] at h1 h2 ⊢
    by_cases hab : a.toNat < b.toNat
    · by_cases hbc : b.toNat < c.toNat
      · rw [if_pos (by omega : a.toNat < c.toNat)]
      · by_cases hbc2 : b.toNat = c.toNat
        · rw [if_pos (by omega : a.toNat < c.toNat)]
        · rw [if_neg hbc, if_neg hbc2] at h2
          simp at h2
    · by_cases hab2 : a.toNat = b.toNat
      · rw [if_neg hab, if_pos hab2] at h1
        by_cases hbc : b.toNat < c.toNat
        · rw [if_pos (by omega : a.toNat < c.toNat)]
        · by_cases hbc2 : b.toNat = c.toNat
          · rw [if_neg hbc, if_pos hbc2] at h2
            rw [if_neg (by omega : ¬ a.toNat < c.toNat), if_pos (by omega : a.toNat = c.toNat)]
            exact pyLexLe_trans as bs cs h1 h2
          · rw [if_neg hbc, if_neg hbc2] at h2
            simp at h2
      · rw [if_neg hab, if_neg hab2] at h1
        simp at h1

/-! ## Sanity checks of the embedding on the spec's concrete scenarios -/

example :
    spending_form "u1" [] 5 "Coffee" createSentinel "coffee" =
      ⟨.success "Coffee",
        [.categoryAdd "Coffee" "u1",
         .spendingAdd ⟨5, "Coffee", "Coffee", .serverTimestamp, "u1"⟩]⟩ := by decide

example :
    spending_form "u1" ["Food"] 7 "Lunch" "Food" "" =
      ⟨.success "Food",
        [.spendingAdd ⟨7, "Lunch", "Food", .serverTimestamp, "u1"⟩]⟩ := by decide

example : normalizeCategory " groceries " = "Groceries" := by decide

example : normalizeCategory "Groceries" = "Groceries" := by decide

example :
    (spending_form "u1" ["Groceries"] 5 "x" createSentinel " groceries ").writes =
      [.spendingAdd ⟨5, "x", "Groceries", .serverTimestamp, "u1"⟩] := by decide

/-! ## Characterization of a submission's outcome -/

theorem spending_form_success {u : String} {cats : List String} {a : ℚ} {d sel nn fc : String}
    (h : (spending_form u cats a d sel nn).result = .success fc) :
    u ≠ "" ∧ a ≠ 0 ∧ d ≠ "" ∧
    (spending_form u cats a d sel nn).writes =
      (if fc ∉ cats then [FirestoreWrite.categoryAdd fc u] else []) ++
        [FirestoreWrite.spendingAdd ⟨a, pyStrip d, fc, .serverTimestamp, u⟩] := by
  simp only [spending_form] at h ⊢
  by_cases h1 : a = 0 ∨ d = ""
  · rw [if_pos h1] at h
    simp at h
  · rw [if_neg h1] at h ⊢
    by_cases h2 : (resolveSelection sel nn).1 = selectSentinel
    · rw [if_pos h2] at h
      simp at h
    · rw [if_neg h2] at h ⊢
      by_cases h3 : (resolveSelection sel nn).1 = createSentinel ∧
          pyTruthy (resolveSelection sel nn).2 = false
      · rw [if_pos h3] at h
        simp at h
      · rw [if_neg h3] at h ⊢
        by_cases h4 : u ≠ ""
        · rw [if_pos h4] at h ⊢
          simp only [SubmitResult.success.injEq] at h
          subst h
          push_neg at h1
          exact ⟨h4, h1.1, h1.2, rfl⟩
        · rw [if_neg h4] at h
          simp at h

theorem resolveSelection_of_ne {sel nn : String} (h : sel ≠ createSentinel) :
    resolveSelection sel nn = (sel, none) := by
  simp [resolveSelection, h]

theorem resolveSelection_create_empty :
    resolveSelection createSentinel "" = (createSentinel, some "") := by
  simp [resolveSelection]

theorem resolveSelection_create {nn : String} (h : nn ≠ "") :
    resolveSelection createSentinel nn =
      (normalizeCategory nn, some (normalizeCategory nn)) := by
  simp [resolveSelection, h]

theorem spending_form_result_success {u : String} {cats : List String} {a : ℚ}
    {d sel nn fc : String}
    (h : (spending_form u cats a d sel nn).result = .success fc) :
    fc = finalCategory (resolveSelection sel nn).1 (resolveSelection sel nn).2 ∧
    (resolveSelection sel nn).1 ≠ selectSentinel ∧
    ¬((resolveSelection sel nn).1 = createSentinel ∧
      pyTruthy (resolveSelection sel nn).2 = false) := by
  simp only [spending_form] at h
  by_cases h1 : a = 0 ∨ d = ""
  · rw [if_pos h1] at h
    simp at h
  · rw [if_neg h1] at h
    by_cases h2 : (resolveSelection sel nn).1 = selectSentinel
    · rw [if_pos h2] at h
      simp at h
    · rw [if_neg h2] at h
      by_cases h3 : (resolveSelection sel nn).1 = createSentinel ∧
          pyTruthy (resolveSelection sel nn).2 = false
      · rw [if_pos h3] at h
        simp at h
      · rw [if_neg h3] at h
        by_cases h4 : u ≠ ""
        · rw [if_pos h4] at h
          simp only [SubmitResult.success.injEq] at h
          exact ⟨h.symm, h2, h3⟩
        · rw [if_neg h4] at h
          simp at h

/-- A successful submission whose resolved category is not among the fetched
categories resolves it from the "create new" text input: the resolved name is
the normalization of the entered name, hence a fixpoint of normalization. -/
theorem success_new_normalized {u : String} {cats : List String} {a : ℚ}
    {d sel nn fc : String}
    (hmem : sel ∈ category_options cats)
    (h : (spending_form u cats a d sel nn).result = .success fc)
    (hnew : fc ∉ cats) :
    fc = normalizeCategory nn ∧ normalizeCategory fc = fc := by
  obtain ⟨hfc, hsel, hcr⟩ := spending_form_result_success h
  by_cases hc : sel = createSentinel
  · subst hc
    by_cases hn : nn = ""
    · subst hn
      rw [resolveSelection_create_empty] at hcr
      exact absurd ⟨rfl, rfl⟩ hcr
    · rw [resolveSelection_create hn] at hfc
      simp only [finalCategory] at hfc
      by_cases hN : normalizeCategory nn = createSentinel ∧
          pyTruthy (some (normalizeCategory nn)) = true
      · rw [if_pos hN] at hfc
        simp only [Option.getD_some] at hfc
        rw [normalizeCategory_idem] at hfc
        exact ⟨hfc, by rw [hfc, normalizeCategory_idem]⟩
      · rw [if_neg hN] at hfc
        exact ⟨hfc, by rw [hfc, normalizeCategory_idem]⟩
  · rw [resolveSelection_of_ne hc] at hfc hsel
    have hfcs : fc = sel := by
      simp only [finalCategory, pyTruthy] at hfc
      simpa using hfc
    subst hfcs
    have hm3 : fc = selectSentinel ∨ fc ∈ cats ∨ fc = createSentinel := by
      simpa [category_options, List.mem_cons, List.mem_append, or_assoc] using hmem
    rcases hm3 with hm | hm | hm
    · exact absurd hm hsel
    · exact absurd hm hnew
    · exact absurd hm hc

/-- Every submission issues either no write, a single spending write (resolved
category already fetched), or a category write followed by a spending write
(brand-new resolved category). -/
theorem spending_form_writes_shape (u : String) (cats : List String) (a : ℚ)
    (d sel nn : String) :
    (spending_form u cats a d sel nn).writes = [] ∨
    ∃ fc, (spending_form u cats a d sel nn).result = .success fc ∧
      (((spending_form u cats a d sel nn).writes =
          [.spendingAdd ⟨a, pyStrip d, fc, .serverTimestamp, u⟩] ∧ fc ∈ cats) ∨
       ((spending_form u cats a d sel nn).writes =
          [.categoryAdd fc u, .spendingAdd ⟨a, pyStrip d, fc, .serverTimestamp, u⟩] ∧
          fc ∉ cats)) := by
  rcases hres : (spending_form u cats a d sel nn).result with m | fc | _
  · left
    simp only [spending_form] at hres ⊢
    split_ifs at hres ⊢ <;> simp_all
  · right
    refine ⟨fc, rfl, ?_⟩
    obtain ⟨_, _, _, hw⟩ := spending_form_success hres
    by_cases hmem : fc ∈ cats
    · left
      rw [hw, if_neg (by simpa using hmem)]
      exact ⟨rfl, hmem⟩
    · right
      rw [hw, if_pos hmem]
      exact ⟨rfl, hmem⟩
  · left
    simp only [spending_form] at hres ⊢
    split_ifs at hres ⊢
    simp_all

theorem mem_fetchedNames {s : LedgerState} {n : String} :
    n ∈ fetchedNames s ↔ n ∈ s.categories.map CategoryRec.name :=
  (List.perm_insertionSort pyLeProp _).mem_iff

/-- Invariant of reachable states: the stored category names are pairwise
distinct and each is a fixpoint of normalization. -/
theorem reachable_goodNames {u : String} {s : LedgerState} (h : Reachable u s) :
    (s.categories.map CategoryRec.name).Nodup ∧
    ∀ n ∈ s.categories.map CategoryRec.name, normalizeCategory n = n := by
  induction h with
  | init => exact ⟨List.nodup_nil, by simp⟩
  | step s a d sel nn hr hmem ih =>
    rcases spending_form_writes_shape u (fetchedNames s) a d sel nn with hw | ⟨fc, hres, hOr⟩
    · rw [hw]
      simpa [applyWrites] using ih
    · rcases hOr with ⟨hw, _⟩ | ⟨hw, hnewc⟩
      · rw [hw]
        simpa [applyWrites, applyWrite] using ih
      · rw [hw]
        have hnn := success_new_normalized hmem hres hnewc
        have hnotm : fc ∉ s.categories.map CategoryRec.name := fun hmm =>
          hnewc (mem_fetchedNames.mpr hmm)
        constructor
        · simpa [applyWrites, applyWrite, List.nodup_append, ih.1] using hnotm
        · intro n hn
          simp only [applyWrites, applyWrite, List.foldl_cons, List.foldl_nil,
            List.map_append, List.map_cons, List.map_nil, List.mem_append,
            List.mem_singleton] at hn
          rcases hn with hn | hn
          · exact ih.2 n hn
          · rw [hn]
            exact hnn.2

/-! ## Claim theorems -/

/-- C1 (counterexample): the claim "for every amount ≤ 0, submit returns a
ValidationError and issues no writes" is false at amount = -1: the handler's
check `if not amount` only catches amount = 0, so a negative amount with a
valid description and category submits successfully and issues a write. -/
theorem C1_counterexample :
    (-1 : ℚ) ≤ 0 ∧
    (spending_form "u1" ["Food"] (-1) "Lunch" "Food" "").result = .success "Food" ∧
    (spending_form "u1" ["Food"] (-1) "Lunch" "Food" "").writes ≠ [] := by decide

/-- C1 (amended): for amount = 0 the submit handler returns a ValidationError
and issues no writes; amounts below 0.01 cannot be produced by the Amount
widget (`min_value=0.01`, src/app.py line 139), and the handler itself accepts
negative amounts if passed directly. -/
theorem C1_zero_amount_rejected (u : String) (cats : List String) (d sel nn : String) :
    spending_form u cats 0 d sel nn =
      ⟨.validationError "Please enter both Amount and Description.", []⟩ := by
  simp [spending_form]

/-- C2: in every state reachable through the submit operation no two stored
category records have the same normalized (trimmed, title-cased) name; and
when the normalized new category name already equals a fetched category, submit
silently resolves to that existing category, issuing only the spending write
and no duplicate category record. -/
theorem C2_no_duplicate_normalized_categories :
    (∀ (u : String) (s : LedgerState), Reachable u s →
      (s.categories.map CategoryRec.name).Pairwise
        (fun a b => normalizeCategory a ≠ normalizeCategory b)) ∧
    (∀ (u : String) (cats : List String) (a : ℚ) (d nn : String),
      nn ≠ "" → normalizeCategory nn ∈ cats → a ≠ 0 → d ≠ "" → u ≠ "" →
      spending_form u cats a d createSentinel nn =
        ⟨.success (normalizeCategory nn),
         [.spendingAdd ⟨a, pyStrip d, normalizeCategory nn, .serverTimestamp, u⟩]⟩) := by
  constructor
  · intro u s h
    obtain ⟨hnd, hfix⟩ := reachable_goodNames h
    refine List.Pairwise.imp_of_mem ?_ hnd
    intro a b ha hb hne heq
    exact hne (by rw [← hfix a ha, ← hfix b hb, heq])
  · intro u cats a d nn hnn hmemN ha hd hu
    have hidem := normalizeCategory_idem nn
    have hsel2 : normalizeCategory nn ≠ selectSentinel := by
      intro heq
      rw [heq] at hidem
      exact absurd hidem (by decide)
    have hcr2 : ¬(normalizeCategory nn = createSentinel ∧
        pyTruthy (some (normalizeCategory nn)) = false) := by
      rintro ⟨hA, hB⟩
      rw [hA] at hB
      exact absurd hB (by decide)
    have hfin : finalCategory (normalizeCategory nn) (some (normalizeCategory nn)) =
        normalizeCategory nn := by
      unfold finalCategory
      split_ifs with hx
      · simpa [Option.getD_some] using normalizeCategory_idem nn
      · rfl
    simp only [spending_form, resolveSelection_create hnn]
    rw [if_neg (show ¬(a = 0 ∨ d = "") by rintro (h | h) <;> simp_all)]
    rw [if_neg hsel2, if_neg hcr2, if_pos hu, hfin]
    rw [if_neg (not_not_intro hmemN)]
    rfl

/-- Witness for C2: both conjuncts applied at a concrete input; the state
reached by one successful "create new category" submission from the empty
store, and the concrete duplicate submission of the spec's example. -/
theorem C2_no_duplicate_normalized_categories_witness :
    ((applyWrites ⟨[], []⟩
        (spending_form "u1" (fetchedNames ⟨[], []⟩) 5 "x" createSentinel
          "groceries").writes).categories.map CategoryRec.name).Pairwise
      (fun a b => normalizeCategory a ≠ normalizeCategory b) ∧
    spending_form "u1" ["Groceries"] 5 "x" createSentinel " groceries " =
      ⟨.success "Groceries",
       [.spendingAdd ⟨5, "x", "Groceries", .serverTimestamp, "u1"⟩]⟩ := by
  constructor
  · exact C2_no_duplicate_normalized_categories.1 "u1" _
      (Reachable.step ⟨[], []⟩ 5 "x" createSentinel "groceries" Reachable.init (by decide))
  · have h := C2_no_duplicate_normalized_categories.2 "u1" ["Groceries"] 5 "x" " groceries "
      (by decide) (by decide) (by decide) (by decide) (by decide)
    exact h.trans (by decide)

/-- C3: a successful submit whose resolved category is not in the previously
fetched category set issues exactly one category write and exactly one spending
write, the category write first. -/
theorem C3_new_category_write_order {u : String} {cats : List String} {a : ℚ}
    {d sel nn fc : String}
    (hres : (spending_form u cats a d sel nn).result = .success fc)
    (hnew : fc ∉ cats) :
    (spending_form u cats a d sel nn).writes =
      [.categoryAdd fc u, .spendingAdd ⟨a, pyStrip d, fc, .serverTimestamp, u⟩] := by
  obtain ⟨_, _, _, hw⟩ := spending_form_success hres
  rw [hw, if_pos hnew]
  rfl

/-- Witness for C3 at the spec's concrete scenario (new category "coffee"). -/
theorem C3_new_category_write_order_witness :
    (spending_form "u1" [] 5 "Coffee" createSentinel "coffee").result = .success "Coffee" ∧
    (spending_form "u1" [] 5 "Coffee" createSentinel "coffee").writes =
      [.categoryAdd "Coffee" "u1",
       .spendingAdd ⟨5, "Coffee", "Coffee", .serverTimestamp, "u1"⟩] :=
  ⟨by decide, C3_new_category_write_order (by decide) (by decide)⟩

/-- C4: a successful submit whose resolved category is already in the fetched
category set issues exactly one spending write and zero category writes, and
leaves the categories collection unchanged. -/
theorem C4_existing_category_single_write {u : String} {cats : List String} {a : ℚ}
    {d sel nn fc : String}
    (hres : (spending_form u cats a d sel nn).result = .success fc)
    (hmem : fc ∈ cats) :
    (spending_form u cats a d sel nn).writes =
      [.spendingAdd ⟨a, pyStrip d, fc, .serverTimestamp, u⟩] ∧
    ∀ s : LedgerState,
      (applyWrites s (spending_form u cats a d sel nn).writes).categories =
        s.categories := by
  obtain ⟨_, _, _, hw⟩ := spending_form_success hres
  have hw2 : (spending_form u cats a d sel nn).writes =
      [.spendingAdd ⟨a, pyStrip d, fc, .serverTimestamp, u⟩] := by
    rw [hw, if_neg (not_not_intro hmem)]
    rfl
  exact ⟨hw2, fun s => by rw [hw2]; rfl⟩

/-- Witness for C4 at the spec's concrete scenario (existing category "Food"). -/
theorem C4_existing_category_single_write_witness :
    (spending_form "u1" ["Food"] 7 "Lunch" "Food" "").result = .success "Food" ∧
    (spending_form "u1" ["Food"] 7 "Lunch" "Food" "").writes =
      [.spendingAdd ⟨7, "Lunch", "Food", .serverTimestamp, "u1"⟩] :=
  ⟨by decide, (C4_existing_category_single_write (by decide) (by decide)).1⟩

/-- C5 (counterexample): the claim "for every description consisting only of
whitespace, submit returns a ValidationError" is false at description = " ":
the handler's check `if not description` only catches the empty string, so a
nonempty all-whitespace description submits successfully (and a write is
issued, with the stored description stripped to ""). -/
theorem C5_counterexample :
    (" " : String).data ≠ [] ∧
    (∀ c ∈ (" " : String).data, c.isWhitespace = true) ∧
    (spending_form "u1" ["Food"] 5 " " "Food" "").result = .success "Food" ∧
    (spending_form "u1" ["Food"] 5 " " "Food" "").writes =
      [.spendingAdd ⟨5, "", "Food", .serverTimestamp, "u1"⟩] := by decide

/-- C5 (amended): only the empty description is rejected: for description = ""
submit returns a ValidationError and issues no writes; a nonempty description
consisting only of whitespace passes validation. -/
theorem C5_empty_description_rejected (u : String) (cats : List String) (a : ℚ)
    (sel nn : String) :
    spending_form u cats a "" sel nn =
      ⟨.validationError "Please enter both Amount and Description.", []⟩ := by
  simp [spending_form]

/-- C6: every successful submit issues exactly one spending write, whose fields
are exactly the resolved category, the whitespace-stripped description, the
numeric amount, the server-timestamp sentinel (not a client-supplied time), and
the owner id. -/
theorem C6_spending_payload_fields {u : String} {cats : List String} {a : ℚ}
    {d sel nn fc : String}
    (hres : (spending_form u cats a d sel nn).result = .success fc) :
    ((spending_form u cats a d sel nn).writes.filter FirestoreWrite.isSpendingAdd) =
      [.spendingAdd ⟨a, pyStrip d, fc, .serverTimestamp, u⟩] := by
  obtain ⟨_, _, _, hw⟩ := spending_form_success hres
  rw [hw]
  by_cases hm : fc ∈ cats
  · rw [if_neg (not_not_intro hm)]
    rfl
  · rw [if_pos hm]
    rfl

/-- Witness for C6 at a concrete successful submission. -/
theorem C6_spending_payload_fields_witness :
    (spending_form "u1" [] 5 " Coffee " createSentinel "coffee").result =
      .success "Coffee" ∧
    ((spending_form "u1" [] 5 " Coffee " createSentinel "coffee").writes.filter
        FirestoreWrite.isSpendingAdd) =
      [.spendingAdd ⟨5, "Coffee", "Coffee", .serverTimestamp, "u1"⟩] :=
  ⟨by decide, C6_spending_payload_fields (by decide)⟩

/-- C7: for an authenticated owner, `fetch_categories` returns the fetched
names sorted ascending in the case-sensitive (code point) lexical order, as a
permutation of the fetched set, surfacing no error; and on a fetch error it
returns the empty list while surfacing the error message. -/
theorem C7_fetch_categories_sorted_soft_fail (u : String) (names : List String)
    (e : String) (hu : u ≠ "") :
    List.Sorted pyLeProp (fetch_categories u (.ok names)).1 ∧
    (fetch_categories u (.ok names)).1.Perm names ∧
    (fetch_categories u (.ok names)).2 = none ∧
    fetch_categories u (.error e) = ([], some ("Error fetching categories: " ++ e)) := by
  haveI : IsTotal String pyLeProp := ⟨fun a b => pyLexLe_total a.data b.data⟩
  haveI : IsTrans String pyLeProp := ⟨fun a b c => pyLexLe_trans a.data b.data c.data⟩
  unfold fetch_categories
  simp only [if_neg hu]
  refine ⟨List.sorted_insertionSort pyLeProp names, List.perm_insertionSort pyLeProp names,
    ?_, ?_⟩
  · simp
  · simp

/-- Witness for C7 at a concrete owner, fetch result, and fetch error. -/
theorem C7_fetch_categories_sorted_soft_fail_witness :
    ("u1" : String) ≠ "" ∧
    (List.Sorted pyLeProp (fetch_categories "u1" (.ok ["b", "a"])).1 ∧
     (fetch_categories "u1" (.ok ["b", "a"])).1.Perm ["b", "a"] ∧
     (fetch_categories "u1" (.ok ["b", "a"])).2 = none ∧
     fetch_categories "u1" (.error "boom") =
       ([], some ("Error fetching categories: " ++ "boom"))) :=
  ⟨by decide, C7_fetch_categories_sorted_soft_fail "u1" ["b", "a"] "boom" (by decide)⟩

/-- C8 (counterexample): the claim's "form state preserved" part is false: the
form is declared with `clear_on_submit=True`, so even a submission that yields
a ValidationError (here: no category chosen) resets the widgets to their
defaults instead of preserving the entered values. -/
theorem C8_counterexample :
    (spending_form "u1" [] 7 "Lunch" selectSentinel "").result =
      .validationError "Please select or create a category." ∧
    (spending_form "u1" [] 7 "Lunch" selectSentinel "").writes = [] ∧
    formStateAfterSubmit ⟨7, "Lunch", selectSentinel, ""⟩ ≠
      ⟨7, "Lunch", selectSentinel, ""⟩ := by
  refine ⟨by decide, by decide, ?_⟩
  intro h
  exact absurd (congrArg FormState.description h) (by decide)

/-- C8 (amended): a submission that yields a ValidationError surfaces the error
inline, attempts no write, and leaves the stored state unchanged; but the form
state is not preserved: `clear_on_submit=True` resets the form to its defaults
after every press of the submit button, including failed validations. -/
theorem C8_validation_error_no_writes {u : String} {cats : List String}
    {a : ℚ} {d sel nn msg : String}
    (h : (spending_form u cats a d sel nn).result = .validationError msg) :
    (spending_form u cats a d sel nn).writes = [] ∧
    (∀ s : LedgerState, applyWrites s (spending_form u cats a d sel nn).writes = s) ∧
    (∀ f : FormState, formStateAfterSubmit f = defaultFormState) := by
  have hw : (spending_form u cats a d sel nn).writes = [] := by
    simp only [spending_form] at h ⊢
    split_ifs at h ⊢ <;> simp_all
  exact ⟨hw, fun s => by rw [hw]; rfl, fun f => rfl⟩

/-- Witness for C8 (amended) at a concrete failing validation. -/
theorem C8_validation_error_no_writes_witness :
    (spending_form "u1" [] 7 "Lunch" selectSentinel "").result =
      .validationError "Please select or create a category." ∧
    (spending_form "u1" [] 7 "Lunch" selectSentinel "").writes = [] :=
  ⟨by decide,
   (@C8_validation_error_no_writes "u1" [] 7 "Lunch" selectSentinel ""
     "Please select or create a category." (by decide)).1⟩

/-- C9: the display projection of fetched spending records carries exactly the
columns [timestamp, amount, category, description] (the fields of `DisplayRow`,
in order), its rows are the projections of the fetched documents, and they are
ordered most-recent-first (descending by server timestamp). -/
theorem C9_display_projection_ordered (u : String) (docs : List SpendingDoc)
    (hu : u ≠ "") :
    (display_df (fetch_spendings u (.ok docs)).1).Pairwise
      (fun r1 r2 => r2.timestamp ≤ r1.timestamp) ∧
    (display_df (fetch_spendings u (.ok docs)).1).Perm (docs.map displayRow) := by
  unfold fetch_spendings display_df
  simp only [if_neg hu]
  constructor
  · exact List.Pairwise.map displayRow (fun a b hab => hab)
      (List.sorted_insertionSort tsDesc docs)
  · exact (List.perm_insertionSort tsDesc docs).map displayRow

/-- Witness for C9 at a concrete fetched document list. -/
theorem C9_display_projection_ordered_witness :
    ("u1" : String) ≠ "" ∧
    ((display_df (fetch_spendings "u1" (.ok [⟨1, "a", "c", 10⟩, ⟨2, "b", "d", 20⟩])).1).Pairwise
      (fun r1 r2 => r2.timestamp ≤ r1.timestamp) ∧
     (display_df (fetch_spendings "u1" (.ok [⟨1, "a", "c", 10⟩, ⟨2, "b", "d", 20⟩])).1).Perm
      (([⟨1, "a", "c", 10⟩, ⟨2, "b", "d", 20⟩] : List SpendingDoc).map displayRow)) :=
  ⟨by decide,
   C9_display_projection_ordered "u1" [⟨1, "a", "c", 10⟩, ⟨2, "b", "d", 20⟩] (by decide)⟩

/-- C10: a newNameInput consisting only of whitespace (nonempty, so truthy)
with the "create new" entry chosen is not rejected: it normalizes to the empty
string, the submission succeeds with resolved category "", and when "" is not
in the fetched category set the submission creates a category record named ""
and a spending record with category "". -/
theorem C10_whitespace_new_category_accepted {u : String} {cats : List String}
    {a : ℚ} {d nn : String}
    (hnn : nn ≠ "") (hws : ∀ c ∈ nn.data, c.isWhitespace = true)
    (ha : a ≠ 0) (hd : d ≠ "") (hu : u ≠ "") :
    (spending_form u cats a d createSentinel nn).result = .success "" ∧
    ("" ∉ cats →
      (spending_form u cats a d createSentinel nn).writes =
        [.categoryAdd "" u,
         .spendingAdd ⟨a, pyStrip d, "", .serverTimestamp, u⟩]) := by
  have hN : normalizeCategory nn = "" := normalizeCategory_whitespace hws
  simp only [spending_form, resolveSelection_create hnn, hN]
  rw [if_neg (show ¬(a = 0 ∨ d = "") by rintro (h | h) <;> simp_all)]
  rw [if_neg (show ("" : String) ≠ selectSentinel by decide)]
  rw [if_neg (show ¬(("" : String) = createSentinel ∧ pyTruthy (some "") = false) by
    rintro ⟨hA, _⟩
    exact absurd hA (by decide))]
  rw [if_pos hu]
  rw [show finalCategory "" (some "") = "" by decide]
  constructor
  · rfl
  · intro hmem
    rw [if_pos hmem]
    rfl

/-- Witness for C10 at the concrete whitespace-only name " ". -/
theorem C10_whitespace_new_category_accepted_witness :
    ((" " : String) ≠ "" ∧ (∀ c ∈ (" " : String).data, c.isWhitespace = true)) ∧
    (spending_form "u1" [] 5 "Coffee" createSentinel " ").result = .success "" ∧
    (spending_form "u1" [] 5 "Coffee" createSentinel " ").writes =
      [.categoryAdd "" "u1", .spendingAdd ⟨5, "Coffee", "", .serverTimestamp, "u1"⟩] := by
  have h := @C10_whitespace_new_category_accepted "u1" [] 5 "Coffee" " "
    (by decide) (by decide) (by decide) (by decide) (by decide)
  exact ⟨⟨by decide, by decide⟩, h.1, h.2 (by decide)⟩

end SpendingTracker
